import Mathlib

/-!
Shallow embedding of the sound-amp audio-routing program (src/main.rs).

Samples are `f32` in the source; they are modelled as `ℚ` so that the
arithmetic of the claims (gain addition, clamping at 0, multiplication)
is exact.  The `ringbuf` crate's `RingBuffer<f32>` (an external
dependency, constructed at src/main.rs:75 and :267) is modelled by its
documented single-producer single-consumer contract: a bounded FIFO
whose `push` returns `Err` (the item is dropped) when the buffer is
full and whose `pop` returns `None` when it is empty.  Rust panics
(`unwrap` / `expect` / out-of-bounds indexing) are modelled as
`Except.error`.
-/

/-- Model of the `ringbuf` crate's `RingBuffer<f32>` as used by the
program: a fixed capacity and the list of buffered-but-unread samples,
oldest first. -/
structure SampleQueue where
  capacity : Nat
  buf : List ℚ
deriving DecidableEq, Repr

/-- Producer-end `push`: if the queue is full the incoming sample is
dropped and the overflow is reported (`false`, i.e. `Err` in Rust);
otherwise the sample is appended and `true` (`Ok`) is returned. -/
def SampleQueue.push (q : SampleQueue) (s : ℚ) : SampleQueue × Bool :=
  if q.buf.length < q.capacity then ({ q with buf := q.buf ++ [s] }, true)
  else (q, false)

/-- Consumer-end `pop`: returns `none` when the queue is empty,
otherwise removes and returns the oldest sample. -/
def SampleQueue.pop (q : SampleQueue) : SampleQueue × Option ℚ :=
  match q.buf with
  | [] => (q, none)
  | x :: xs => ({ q with buf := xs }, some x)

/-- One step of the interleaved producer/consumer history used to state
the FIFO property: either the producer offers a sample or the consumer
requests one. -/
inductive QueueOp where
  | enqueue (s : ℚ)
  | dequeue
deriving DecidableEq, Repr

/-- Runs a sequence of queue operations, returning the final queue, the
samples accepted by `push` (in push order) and the samples returned by
`pop` (in pop order). -/
def runOps (q : SampleQueue) : List QueueOp → SampleQueue × List ℚ × List ℚ
  | [] => (q, [], [])
  | QueueOp.enqueue s :: rest =>
    let p := q.push s
    let r := runOps p.1 rest
    (r.1, if p.2 then s :: r.2.1 else r.2.1, r.2.2)
  | QueueOp.dequeue :: rest =>
    let p := q.pop
    let r := runOps p.1 rest
    (r.1, r.2.1, match p.2 with | some v => v :: r.2.2 | none => r.2.2)

/-- Model of the output callbacks (output_data_fn at src/main.rs:88-100
and the output closure at src/main.rs:288-292): fill each of the `n`
requested output slots by popping from the consumer end, substituting
silence `0.0` whenever the pop returns no sample.  Returns the written
slots in order and the queue left behind. -/
def outputCallbackFill (q : SampleQueue) : Nat → List ℚ × SampleQueue
  | 0 => ([], q)
  | n + 1 =>
    let p := q.pop
    let r := outputCallbackFill p.1 n
    (p.2.getD 0 :: r.1, r.2)

/-- Model of create_link's input callback (src/main.rs:274-279): the
volume factor is read from the shared cell once per invocation (line
275, `factor_value`), then every sample of the buffer is multiplied by
that one value and pushed; the push result is `.unwrap()`-ed (line
277), so a full queue panics (`Except.error`). -/
def createLinkInputCallback (factorValue : ℚ) (data : List ℚ)
    (q : SampleQueue) : Except Unit SampleQueue :=
  match data with
  | [] => .ok q
  | s :: rest =>
    let p := q.push (s * factorValue)
    if p.2 then createLinkInputCallback factorValue rest p.1 else .error ()

/-- The sequence of scaled values the create_link input callback pushes
for one buffer: every sample is multiplied by the single `factor_value`
snapshot taken at the top of the invocation (src/main.rs:275-278). -/
def createLinkScaledSamples (factorValue : ℚ) (data : List ℚ) : List ℚ :=
  data.map (fun s => s * factorValue)

/-- Modelled from the spec: the claimed per-sample gain read, in which
the callback reads the gain that is current at the moment each
individual sample is processed (`gainAt i` for the i-th sample of the
buffer) before multiplying. -/
def perSampleGainScaled (gainAt : Nat → ℚ) : List ℚ → List ℚ
  | [] => []
  | s :: rest => s * gainAt 0 :: perSampleGainScaled (fun i => gainAt (i + 1)) rest

/-- App::increase_volume (src/main.rs:63-66): adds 10.0 to the draft
gain field with no clamp. -/
def increase_volume (factor : ℚ) : ℚ :=
  factor + 10

/-- App::decrease_volume (src/main.rs:68-71): subtracts 10.0 and clamps
the result to 0.0 when it is not positive. -/
def decrease_volume (factor : ℚ) : ℚ :=
  let newFactor := factor - 10
  if newFactor > 0 then newFactor else 0

/-- The PlayerCommand::IncreaseVolume handler in the supervisor worker
(src/main.rs:244-249): the new shared volume factor is the old value
plus the commanded amount, with no clamp in either direction. -/
def increaseVolumeNewValue (oldValue amount : ℚ) : ℚ :=
  oldValue + amount

/-- The commands the supervisor worker accepts (src/main.rs:222-225). -/
inductive PlayerCommand where
  | start (inputDeviceI : Nat)
  | increaseVolume (amount : ℚ)
deriving DecidableEq, Repr

/-- The audio environment outside the program: the host's ordered input
device list (device ids, as enumerated at src/main.rs:269) and, for
each device id, whether building its streams succeeds. -/
structure AudioEnv where
  inputDevices : List Nat
  openOk : Nat → Bool

/-- Whether `create_link` (src/main.rs:259-299) panics for input device
index `i`: indexing the collected device vector out of bounds panics at
line 269, and a stream-configuration or stream-open failure panics
through `unwrap`/`expect` (lines 261, 264, 273, 281, 287, 294). -/
def createLinkPanics (env : AudioEnv) (i : Nat) : Bool :=
  match env.inputDevices.get? i with
  | none => true
  | some d => !(env.openOk d)

/-- Supervisor worker state (src/main.rs:230-232): whether the
input/output stream options currently hold a link, and the shared
volume factor. -/
structure WorkerState where
  hasLink : Bool
  volumeFactor : ℚ
deriving DecidableEq, Repr

/-- Result of running the supervisor worker: still running with a
state, or the thread aborted through an uncaught panic. -/
inductive WorkerRun where
  | running (st : WorkerState)
  | panicked
deriving DecidableEq, Repr

/-- One command processed by the supervisor worker loop
(src/main.rs:235-254): Start calls create_link and stores the new
streams (replacing any old ones only after the call returns); a panic
inside create_link aborts the thread.  IncreaseVolume updates the
shared factor. -/
def workerStep (env : AudioEnv) (st : WorkerState) :
    PlayerCommand → WorkerRun
  | .start i =>
    if createLinkPanics env i then .panicked
    else .running { st with hasLink := true }
  | .increaseVolume a =>
    .running { st with volumeFactor := increaseVolumeNewValue st.volumeFactor a }

/-- The supervisor worker draining its command channel in order; once
the thread has panicked, no further command is ever processed. -/
def workerRunCmds (env : AudioEnv) (st : WorkerState) :
    List PlayerCommand → WorkerRun
  | [] => .running st
  | c :: rest =>
    match workerStep env st c with
    | .running st' => workerRunCmds env st' rest
    | .panicked => .panicked

/-- Resource events performed when a Start command arrives while a link
is already held. -/
inductive SupEvent where
  | openNewLink
  | closeOldLink
deriving DecidableEq, BEq, Repr

/-- Order of operations in the worker's Start arm (src/main.rs:240-242)
when streams are already held: `create_link` builds and plays the new
streams first (line 240); the old streams are dropped only afterwards,
when the two `Option` variables are reassigned (lines 241-242). -/
def startWhileLinkedOrder : List SupEvent :=
  [SupEvent.openNewLink, SupEvent.closeOldLink]

/-- Observable stream state during create_link, projected onto the two
streams: whether each has been built and whether `play()` has been
called on it. -/
structure StreamsState where
  inputBuilt : Bool
  inputPlaying : Bool
  outputBuilt : Bool
  outputPlaying : Bool
deriving DecidableEq, Repr

/-- Control flow of create_link (src/main.rs:270-297) with failure
injection for the two stream-open points: the input stream is built
(line 272) and immediately played (line 282, inside its own block,
before the output stream exists); then the output stream is built (line
286) and played (line 295).  A failed build panics through `unwrap`
(`Except.error`, carrying the stream state at the moment of the panic);
no error value is ever returned. -/
def createLinkStreams (inputOpenOk outputOpenOk : Bool) :
    Except StreamsState StreamsState :=
  if !inputOpenOk then
    .error { inputBuilt := false, inputPlaying := false,
             outputBuilt := false, outputPlaying := false }
  else
    let afterInput : StreamsState :=
      { inputBuilt := true, inputPlaying := true,
        outputBuilt := false, outputPlaying := false }
    if !outputOpenOk then .error afterInput
    else .ok { afterInput with outputBuilt := true, outputPlaying := true }

/-- The prefill loop of the draft link path (src/main.rs:77-79): push
`0.0` onto the producer end `n` times, `.unwrap()`-ing each result, so
a failed push would panic. -/
def prefillQueue (q : SampleQueue) : Nat → Except Unit SampleQueue
  | 0 => .ok q
  | n + 1 =>
    match prefillQueue q n with
    | .error e => .error e
    | .ok q' =>
      let p := q'.push 0
      if p.2 then .ok p.1 else .error ()

/-- Steps of the draft link path App::link_selected_devices
(src/main.rs:73-130), in program order. -/
inductive DraftEvent where
  | prefill
  | buildInputStream
  | buildOutputStream
  | playInputStream
  | playOutputStream
deriving DecidableEq, BEq, Repr

/-- Program order of App::link_selected_devices: the queue is created
and prefilled (lines 74-79) before either stream is built (lines 109,
124) or played (lines 126-127). -/
def linkSelectedOrder : List DraftEvent :=
  [DraftEvent.prefill, DraftEvent.buildInputStream,
   DraftEvent.buildOutputStream, DraftEvent.playInputStream,
   DraftEvent.playOutputStream]

/-!  General lemmas about the queue models. -/

/-- Balance invariant of an interleaved push/pop history: the initial
buffer followed by the accepted pushes equals the popped samples
followed by the final buffer. -/
theorem runOps_balance (ops : List QueueOp) (q : SampleQueue) :
    q.buf ++ (runOps q ops).2.1 = (runOps q ops).2.2 ++ (runOps q ops).1.buf := by
  induction ops generalizing q with
  | nil => simp [runOps]
  | cons c rest ih =>
    cases c with
    | enqueue s =>
      by_cases h : q.buf.length < q.capacity
      · have h2 := ih { q with buf := q.buf ++ [s] }
        simp only [runOps, SampleQueue.push, if_pos h]
        simp only [List.append_assoc, List.singleton_append] at h2
        simpa using h2
      · have h2 := ih q
        simp only [runOps, SampleQueue.push, if_neg h]
        simpa using h2
    | dequeue =>
      cases hb : q.buf with
      | nil =>
        have h2 := ih q
        simp only [runOps, SampleQueue.pop, hb]
        simpa [hb] using h2
      | cons x xs =>
        have h2 := ih { q with buf := xs }
        simp only [runOps, SampleQueue.pop, hb]
        simp only [List.cons_append] at h2 ⊢
        simpa using congrArg (x :: ·) h2

/-- Closed form of the output callback: the first slots receive the
buffered samples in order, every remaining slot receives silence, and
the queue is left with whatever the callback did not consume. -/
theorem outputCallbackFill_eq (n : Nat) (q : SampleQueue) :
    outputCallbackFill q n =
      (q.buf.take n ++ List.replicate (n - q.buf.length) 0,
       ⟨q.capacity, q.buf.drop n⟩) := by
  induction n generalizing q with
  | zero => simp [outputCallbackFill]
  | succ n ih =>
    cases hb : q.buf with
    | nil =>
      have h2 := ih q
      simp only [outputCallbackFill, SampleQueue.pop, hb]
      rw [h2]
      simp [hb, List.replicate_succ]
    | cons x xs =>
      have h2 := ih { q with buf := xs }
      simp only [outputCallbackFill, SampleQueue.pop, hb]
      rw [h2]
      simp [hb, Nat.succ_sub_succ]

/-- Prefilling an empty queue of capacity `C` with `n ≤ C` zero samples
never panics and leaves exactly `n` zeros buffered. -/
theorem prefillQueue_ok (n C : Nat) (h : n ≤ C) :
    prefillQueue ⟨C, []⟩ n = .ok ⟨C, List.replicate n 0⟩ := by
  induction n with
  | zero => simp [prefillQueue]
  | succ n ih =>
    have hn : n ≤ C := Nat.le_of_succ_le h
    have hlt : n < C := Nat.lt_of_succ_le h
    simp [prefillQueue, ih hn, SampleQueue.push, hlt, List.replicate_succ']

/-!  Claim theorems. -/

/-- C1: the spec's policy is that a push onto a full queue drops the
sample and reports overflow without aborting; in the supervisor path
the create_link input callback instead `.unwrap()`s the push result
(src/main.rs:277), so the first overflowing push panics and aborts the
worker thread: on any buffer arriving while the queue is full, the
callback returns a panic instead of dropping the sample. -/
theorem createLink_push_on_full_queue_panics (g s : ℚ) (rest : List ℚ)
    (q : SampleQueue) (h : q.capacity ≤ q.buf.length) :
    createLinkInputCallback g (s :: rest) q = .error () := by
  have hnl : ¬ q.buf.length < q.capacity := by omega
  simp [createLinkInputCallback, SampleQueue.push, hnl]

/-- C1 witness: the 48000-capacity ring of create_link, once full,
panics on the very next pushed sample. -/
theorem createLink_push_on_full_queue_panics_witness :
    createLinkInputCallback 1 [5] ⟨48000, List.replicate 48000 0⟩ =
      .error () := by
  exact createLink_push_on_full_queue_panics 1 5 []
    ⟨48000, List.replicate 48000 0⟩ (by rw [List.length_replicate])

/-- C2: popping an empty queue returns no sample (and leaves the queue
unchanged), and the output callback writes silence 0.0 into every slot
for which the pop returned no sample: the `n` requested slots receive
the available buffered samples followed by zeros. -/
theorem pop_empty_none_and_output_silence :
    (∀ q : SampleQueue, q.buf = [] → q.pop = (q, none)) ∧
    (∀ (q : SampleQueue) (n : Nat),
      (outputCallbackFill q n).1 =
        q.buf.take n ++ List.replicate (n - q.buf.length) 0) := by
  constructor
  · intro q hq
    simp [SampleQueue.pop, hq]
  · intro q n
    rw [outputCallbackFill_eq]

/-- C2 witness: a concrete empty pop and a concrete underrun (three
slots requested, one sample buffered, two slots silenced). -/
theorem pop_empty_none_and_output_silence_witness :
    SampleQueue.pop ⟨8, []⟩ = (⟨8, []⟩, none) ∧
    (outputCallbackFill ⟨8, [1]⟩ 3).1 = [1, 0, 0] := by
  refine ⟨pop_empty_none_and_output_silence.1 ⟨8, []⟩ rfl, ?_⟩
  have h := pop_empty_none_and_output_silence.2 ⟨8, [1]⟩ 3
  simpa using h

/-- C3: the queue is FIFO and exactly-once: for every interleaving of
pushes and pops starting from an empty queue, the accepted pushes equal
the popped samples followed by the samples still buffered, so the pops
return exactly the accepted pushes, in push order, each at most once. -/
theorem sampleQueue_fifo_exactly_once (C : Nat) (ops : List QueueOp) :
    (runOps ⟨C, []⟩ ops).2.1 =
      (runOps ⟨C, []⟩ ops).2.2 ++ (runOps ⟨C, []⟩ ops).1.buf ∧
    (runOps ⟨C, []⟩ ops).2.2 <+: (runOps ⟨C, []⟩ ops).2.1 := by
  have h := runOps_balance ops ⟨C, []⟩
  simp only [List.nil_append] at h
  exact ⟨h, ⟨(runOps ⟨C, []⟩ ops).1.buf, h.symm⟩⟩

/-- C4 counterexample: the supervisor's gain handler does not clamp:
applying the adjustment -11 to gain 1 yields -10, not the claimed 0. -/
theorem gain_clamp_counterexample :
    increaseVolumeNewValue 1 (-11) = -10 ∧
    increaseVolumeNewValue 1 (-11) ≠ 0 ∧
    increaseVolumeNewValue 1 (-11) < 0 := by
  refine ⟨?_, ?_, ?_⟩ <;> norm_num [increaseVolumeNewValue]

/-- C4 amended: the supervisor's IncreaseVolume handler returns exactly
the old gain plus the delta with no floor; the 0.0 floor exists only in
the draft App path, where decrease_volume subtracts the fixed step 10.0
and clamps a non-positive result to 0.0 (agreeing with the claim's
clamp shape for that fixed step), and increase_volume adds 10.0
unclamped. -/
theorem gain_adjust_amended :
    (∀ g a : ℚ, increaseVolumeNewValue g a = g + a) ∧
    (∀ f : ℚ, decrease_volume f = if f - 10 < 0 then 0 else f - 10) ∧
    (∀ f : ℚ, increase_volume f = f + 10) := by
  refine ⟨fun g a => rfl, fun f => ?_, fun f => rfl⟩
  simp only [decrease_volume]
  split_ifs with h1 h2 <;> linarith

/-- C5 counterexample: with a gain of 1 at the moment the first sample
of a two-sample buffer is processed and 2 at the moment the second is
processed, the claimed per-sample read would push [1, 2]; the
create_link callback reads the gain once per invocation, so whichever
snapshot it takes (1 or 2) it pushes [1, 1] or [2, 2], never [1, 2]. -/
theorem gain_per_sample_counterexample :
    perSampleGainScaled (fun i => if i = 0 then 1 else 2) [1, 1] = [1, 2] ∧
    createLinkScaledSamples 1 [1, 1] ≠ [1, 2] ∧
    createLinkScaledSamples 2 [1, 1] ≠ [1, 2] := by
  refine ⟨?_, ?_, ?_⟩ <;> simp [perSampleGainScaled, createLinkScaledSamples]

/-- C5 amended: gain is applied at the producer stage — every sample
the create_link input callback enqueues is the delivered sample
multiplied by the gain — but the gain cell is read once per callback
invocation, so one snapshot scales the whole buffer (a gain change
takes effect at the next buffer, not the next sample); the claimed
per-sample read coincides with the code exactly when the gain does not
change during the buffer. -/
theorem gain_applied_at_producer_amended :
    (∀ (g : ℚ) (data : List ℚ) (q : SampleQueue),
      q.buf.length + data.length ≤ q.capacity →
      createLinkInputCallback g data q =
        .ok { q with buf := q.buf ++ createLinkScaledSamples g data }) ∧
    (∀ (g : ℚ) (data : List ℚ),
      perSampleGainScaled (fun _ => g) data = createLinkScaledSamples g data) := by
  constructor
  · intro g data
    induction data with
    | nil =>
      intro q _
      simp [createLinkInputCallback, createLinkScaledSamples]
    | cons s rest ih =>
      intro q h
      simp only [List.length_cons] at h
      have hlt : q.buf.length < q.capacity := by omega
      have h2 : ({ q with buf := q.buf ++ [s * g] } : SampleQueue).buf.length
          + rest.length ≤ ({ q with buf := q.buf ++ [s * g] } : SampleQueue).capacity := by
        simp only [List.length_append, List.length_singleton]
        omega
      simp only [createLinkInputCallback, SampleQueue.push, if_pos hlt]
      rw [ih _ h2]
      simp [createLinkScaledSamples]
  · intro g data
    induction data with
    | nil => simp [perSampleGainScaled, createLinkScaledSamples]
    | cons s rest ih =>
      simp only [perSampleGainScaled, createLinkScaledSamples, List.map_cons] at ih ⊢
      exact congrArg (s * g :: ·) ih

/-- C5 witness: a concrete buffer [3] scaled by the snapshot gain 2 is
enqueued as [6]. -/
theorem gain_applied_at_producer_amended_witness :
    createLinkInputCallback 2 [3] ⟨8, []⟩ = .ok ⟨8, [6]⟩ := by
  have h := gain_applied_at_producer_amended.1 2 [3] ⟨8, []⟩ (by norm_num)
  norm_num [createLinkScaledSamples] at h
  exact h

/-- C6 counterexample: injecting an output-stream open failure into
create_link, the call panics (no error value is returned) and the state
carried at the panic shows the input stream already built and playing
while the output stream was never built — so a stream was started
before both were constructed, and the input stream was not torn down
before any error return. -/
theorem all_or_nothing_counterexample :
    createLinkStreams true false =
      .error { inputBuilt := true, inputPlaying := true,
               outputBuilt := false, outputPlaying := false } := by
  rfl

/-- C6 amended: create_link plays the input stream immediately after
building it, before the output stream exists; a successful run ends
with both streams playing, an output-open failure panics (is not
returned as an error) with the input stream still playing, and an
input-open failure panics with no stream built. -/
theorem createLink_stream_order_amended :
    (∀ st, createLinkStreams true false = Except.error st →
      st.inputBuilt = true ∧ st.inputPlaying = true ∧ st.outputBuilt = false) ∧
    (∀ a b : Bool,
      createLinkStreams a b =
        .ok { inputBuilt := true, inputPlaying := true,
              outputBuilt := true, outputPlaying := true } ↔ (a = true ∧ b = true)) := by
  constructor
  · intro st h
    have h3 : (Except.error ⟨true, true, false, false⟩ :
        Except StreamsState StreamsState) = Except.error st := by
      rw [← h]; rfl
    cases Except.error.inj h3
    exact ⟨rfl, rfl, rfl⟩
  · intro a b
    cases a <;> cases b <;> simp [createLinkStreams]

/-- C6 witness: at the output-open failure the input stream is playing
and the output stream was never built. -/
theorem createLink_stream_order_amended_witness :
    ({ inputBuilt := true, inputPlaying := true, outputBuilt := false,
       outputPlaying := false } : StreamsState).inputPlaying = true ∧
    ({ inputBuilt := true, inputPlaying := true, outputBuilt := false,
       outputPlaying := false } : StreamsState).outputBuilt = false := by
  have h := createLink_stream_order_amended.1
    { inputBuilt := true, inputPlaying := true,
      outputBuilt := false, outputPlaying := false } rfl
  exact ⟨h.2.1, h.2.2⟩

/-- C7 counterexample: in the worker's Start arm the new link is opened
before the old one is closed (create_link runs before the stream
variables are reassigned), and when opening the replacement link fails
the worker thread panics instead of being left in a usable Idle state
that surfaced an error: with one enumerated device whose streams fail
to open, a Start issued while a link is held ends with the worker
aborted. -/
theorem replace_link_counterexample :
    startWhileLinkedOrder.indexOf SupEvent.openNewLink <
      startWhileLinkedOrder.indexOf SupEvent.closeOldLink ∧
    workerRunCmds ⟨[0], fun _ => false⟩ ⟨true, 1⟩ [PlayerCommand.start 0] =
      WorkerRun.panicked := by
  exact ⟨by decide, rfl⟩

/-- C7 amended: when a Start arrives while a link is active, the worker
opens (and plays) the new link first and drops the old one only
afterwards, so the two links overlap during construction; if building
the new link panics the worker thread aborts (processing no further
commands and surfacing nothing), and if it succeeds the worker simply
continues holding the new link. -/
theorem replace_link_order_amended :
    startWhileLinkedOrder.indexOf SupEvent.openNewLink <
      startWhileLinkedOrder.indexOf SupEvent.closeOldLink ∧
    (∀ (env : AudioEnv) (st : WorkerState) (i : Nat)
        (rest : List PlayerCommand),
      createLinkPanics env i = true →
      workerRunCmds env st (PlayerCommand.start i :: rest) =
        WorkerRun.panicked) ∧
    (∀ (env : AudioEnv) (st : WorkerState) (i : Nat)
        (rest : List PlayerCommand),
      createLinkPanics env i = false →
      workerRunCmds env st (PlayerCommand.start i :: rest) =
        workerRunCmds env { st with hasLink := true } rest) := by
  refine ⟨by decide, ?_, ?_⟩ <;> intro env st i rest h <;>
    simp [workerRunCmds, workerStep, h]

/-- C7 witness: a failing replacement Start followed by a volume
command ends with the worker aborted; the volume command is never
processed. -/
theorem replace_link_order_amended_witness :
    workerRunCmds ⟨[0], fun _ => false⟩ ⟨true, 1⟩
      [PlayerCommand.start 0, PlayerCommand.increaseVolume 10] =
      WorkerRun.panicked := by
  exact replace_link_order_amended.2.1 ⟨[0], fun _ => false⟩ ⟨true, 1⟩ 0
    [PlayerCommand.increaseVolume 10] rfl

/-- C8 counterexample: a failed Start is fatal beyond the attempted
transition: with two enumerated devices of which the second opens fine,
a Start of the failing first device followed by a Start of the valid
second device leaves the worker aborted — the subsequent valid Start
never succeeds, and no error is caught or reported. -/
theorem link_failure_not_contained_counterexample :
    workerRunCmds ⟨[5, 6], fun d => decide (d = 6)⟩ ⟨false, 1⟩
      [PlayerCommand.start 0, PlayerCommand.start 1] = WorkerRun.panicked ∧
    createLinkPanics ⟨[5, 6], fun d => decide (d = 6)⟩ 1 = false := by
  exact ⟨rfl, rfl⟩

/-- C8 amended: a link-construction failure panics the worker thread:
the run ends aborted and every command queued after the failing Start
is ignored (the run is the same as if the failing Start were the last
command); the process's main thread is unaffected, but the supervisor
catches nothing, reports nothing, and never recovers. -/
theorem link_failure_aborts_worker_amended (env : AudioEnv)
    (st : WorkerState) (i : Nat) (rest : List PlayerCommand)
    (h : createLinkPanics env i = true) :
    workerRunCmds env st (PlayerCommand.start i :: rest) =
      WorkerRun.panicked ∧
    workerRunCmds env st (PlayerCommand.start i :: rest) =
      workerRunCmds env st [PlayerCommand.start i] := by
  simp [workerRunCmds, workerStep, h]

/-- C8 witness: a Start against an empty device list panics the worker
and the queued volume command is dropped. -/
theorem link_failure_aborts_worker_amended_witness :
    workerRunCmds ⟨[], fun _ => true⟩ ⟨false, 1⟩
      [PlayerCommand.start 0, PlayerCommand.increaseVolume 5] =
      WorkerRun.panicked := by
  exact (link_failure_aborts_worker_amended ⟨[], fun _ => true⟩ ⟨false, 1⟩ 0
    [PlayerCommand.increaseVolume 5] rfl).1

/-- C9: a Start whose device index is at or beyond the end of the
enumerated input-device list makes create_link panic on the
out-of-bounds vector index, aborting the worker thread; no
non-panicking behavior exists for such a command. -/
theorem start_out_of_range_panics (env : AudioEnv) (st : WorkerState)
    (i : Nat) (rest : List PlayerCommand)
    (h : env.inputDevices.length ≤ i) :
    createLinkPanics env i = true ∧
    workerRunCmds env st (PlayerCommand.start i :: rest) =
      WorkerRun.panicked := by
  have hp : createLinkPanics env i = true := by
    unfold createLinkPanics
    rw [List.get?_eq_none.mpr h]
  refine ⟨hp, ?_⟩
  simp [workerRunCmds, workerStep, hp]

/-- C9 witness: with one enumerated device, Start(3) aborts the
worker. -/
theorem start_out_of_range_panics_witness :
    workerRunCmds ⟨[7], fun _ => true⟩ ⟨false, 1⟩ [PlayerCommand.start 3] =
      WorkerRun.panicked := by
  exact (start_out_of_range_panics ⟨[7], fun _ => true⟩ ⟨false, 1⟩ 3 []
    (by decide)).2

/-- C10: the draft link path pre-fills its 48000-capacity queue with
exactly 1000 zero samples (none of the unwrapped pushes panics), the
queue then holds the 1000 zeros as its whole contents, the first 1000
output-callback pops all return silence 0.0 and empty the queue, and
the pre-fill happens before either stream is played. -/
theorem draft_prefill_silence :
    prefillQueue ⟨48000, []⟩ 1000 = .ok ⟨48000, List.replicate 1000 0⟩ ∧
    (outputCallbackFill ⟨48000, List.replicate 1000 0⟩ 1000).1 =
      List.replicate 1000 0 ∧
    (outputCallbackFill ⟨48000, List.replicate 1000 0⟩ 1000).2.buf = [] ∧
    linkSelectedOrder.indexOf DraftEvent.prefill <
      linkSelectedOrder.indexOf DraftEvent.playInputStream ∧
    linkSelectedOrder.indexOf DraftEvent.prefill <
      linkSelectedOrder.indexOf DraftEvent.playOutputStream := by
  refine ⟨prefillQueue_ok 1000 48000 (by norm_num), ?_, ?_, by decide, by decide⟩
  · rw [outputCallbackFill_eq, List.take_replicate, List.length_replicate]
    norm_num
  · rw [outputCallbackFill_eq]
    simp only [List.drop_replicate]
    norm_num
